/-
Verification of the discretized parallel-transport and holonomy engine
(`fractal_kahler_manifold.py`) and the depth-3 composition driver
(`depth3_simulation.py`).

The Python code is shallowly embedded over ℝ: numpy arrays become functions
`ℕ → ℝ` (with the length carried separately), float arithmetic becomes real
arithmetic, and the seeded Mersenne-Twister phase sequence becomes an
arbitrary fixed sequence `phase : ℕ → ℝ` (no verified claim depends on the
actual drawn values).  Division is real division, so `x / 0 = 0` stands in
for the silent `inf`/`NaN` that numpy produces at the same spots; where that
distinction matters it is called out explicitly.
-/
import Mathlib

open Real Matrix

namespace FHT

noncomputable section

/-- Numpy's `np.linspace a b n` as a function of the index: `x i = a + i·(b−a)/(n−1)`.
For `n = 1` the real-division-by-zero convention gives `x 0 = a`, matching
numpy's single-sample behavior. -/
def linspace (a b : ℝ) (n : ℕ) : ℕ → ℝ :=
  fun i => a + i * (b - a) / ((n : ℝ) - 1)

/-- The fractal Kähler potential
`K(x,y) = Σ_{l<level} scale · 2^(−1.2·l) · (sin(2^l·x + φ_l) + cos(2^l·y + φ_l))`,
from `FractalKahlerManifold._generate_fractal_potential`.  `phase` stands for
the seeded random phase sequence. -/
def Kpot (phase : ℕ → ℝ) (level : ℕ) (scale : ℝ) (x y : ℝ) : ℝ :=
  ∑ l ∈ Finset.range level,
    scale * (1 / ((2 : ℝ) ^ l) ^ (1.2 : ℝ)) *
      (Real.sin ((2 : ℝ) ^ l * x + phase l) + Real.cos ((2 : ℝ) ^ l * y + phase l))

/-- One-dimensional `np.gradient` with spacing `d` on an array of length `n`:
one-sided differences at the two edges, centered differences in the interior. -/
def npGradient (f : ℕ → ℝ) (d : ℝ) (n : ℕ) : ℕ → ℝ :=
  fun i =>
    if i = 0 then (f 1 - f 0) / d
    else if i = n - 1 then (f (n - 1) - f (n - 2)) / d
    else (f (i + 1) - f (i - 1)) / (2 * d)

/-- Numpy's `np.gradient(·, d, axis=1)` on an `n×n` field (differentiate along columns). -/
def gradAxis1 (f : ℕ → ℕ → ℝ) (d : ℝ) (n : ℕ) : ℕ → ℕ → ℝ :=
  fun i j => npGradient (fun k => f i k) d n j

/-- Numpy's `np.gradient(·, d, axis=0)` on an `n×n` field (differentiate along rows). -/
def gradAxis0 (f : ℕ → ℕ → ℝ) (d : ℝ) (n : ℕ) : ℕ → ℕ → ℝ :=
  fun i j => npGradient (fun k => f k j) d n i

/-- The grid axis of the manifold: `np.linspace(-2, 2, size)`. -/
def gridAxis (size : ℕ) : ℕ → ℝ := linspace (-2) 2 size

/-- The axis spacing `x[1] - x[0]` used by the finite differences. -/
def gridSpacing (size : ℕ) : ℝ := gridAxis size 1 - gridAxis size 0

/-- The potential field on the grid, `K[i, j] = K(x_j, y_i)` (row index `i`
is the `y` direction, matching `np.meshgrid`). -/
def Kgrid (size : ℕ) (phase : ℕ → ℝ) (level : ℕ) (scale : ℝ) : ℕ → ℕ → ℝ :=
  fun i j => Kpot phase level scale (gridAxis size j) (gridAxis size i)

/-- The metric field `g = ¼(∂²K/∂x² + ∂²K/∂y²)` by iterated `np.gradient`,
from `FractalKahlerManifold._compute_metric_from_potential`. -/
def gGrid (size : ℕ) (phase : ℕ → ℝ) (level : ℕ) (scale : ℝ) : ℕ → ℕ → ℝ :=
  fun i j =>
    let K := Kgrid size phase level scale
    let d := gridSpacing size
    0.25 * (gradAxis1 (gradAxis1 K d size) d size i j +
            gradAxis0 (gradAxis0 K d size) d size i j)

/-- The connection component `Γˣ_xx = ½·(∂g/∂x)/g`, from
`FractalKahlerManifold._compute_christoffel`.  The division is unguarded,
exactly as in the source. -/
def GammaXgrid (size : ℕ) (phase : ℕ → ℝ) (level : ℕ) (scale : ℝ) : ℕ → ℕ → ℝ :=
  fun i j =>
    let g := gGrid size phase level scale
    0.5 * gradAxis1 g (gridSpacing size) size i j / g i j

/-- The connection component `Γʸ_yy = ½·(∂g/∂y)/g`, from
`FractalKahlerManifold._compute_christoffel`. -/
def GammaYgrid (size : ℕ) (phase : ℕ → ℝ) (level : ℕ) (scale : ℝ) : ℕ → ℕ → ℝ :=
  fun i j =>
    let g := gGrid size phase level scale
    0.5 * gradAxis0 g (gridSpacing size) size i j / g i j

/-- The manifold state after `FractalKahlerManifold.__init__`: the axes and
the two discretized Christoffel fields (indexed `[iy, ix]`). -/
structure FractalKahlerManifold where
  size : ℕ
  x : ℕ → ℝ
  y : ℕ → ℝ
  Gamma_x_xx : ℕ → ℕ → ℝ
  Gamma_y_yy : ℕ → ℕ → ℝ

/-- The constructor `FractalKahlerManifold.__init__`: build axes, potential,
metric and Christoffel fields. -/
def mkManifold (size level : ℕ) (scale : ℝ) (phase : ℕ → ℝ) : FractalKahlerManifold where
  size := size
  x := gridAxis size
  y := gridAxis size
  Gamma_x_xx := GammaXgrid size phase level scale
  Gamma_y_yy := GammaYgrid size phase level scale

/-- Numpy's `np.argmin` over the first `n` entries of `f`: the first index
attaining the minimum (ties keep the earlier index). -/
noncomputable def argminIdx (f : ℕ → ℝ) : ℕ → ℕ
  | 0 => 0
  | n + 1 => if f (argminIdx f n) ≤ f n then argminIdx f n else n

namespace FractalKahlerManifold

/-- The sampler `FractalKahlerManifold.get_christoffel`: nearest-grid-point
lookup by an independent per-axis argmin over the absolute differences. -/
noncomputable def get_christoffel (m : FractalKahlerManifold) (xq yq : ℝ) : ℝ × ℝ :=
  let ix := argminIdx (fun i => |m.x i - xq|) m.size
  let iy := argminIdx (fun i => |m.y i - yq|) m.size
  (m.Gamma_x_xx iy ix, m.Gamma_y_yy iy ix)

/-- The parameter samples `np.linspace(0, 1, steps)`. -/
def t_span (steps : ℕ) : ℕ → ℝ := linspace 0 1 steps

/-- The transported vector after `i` forward-Euler steps: the loop body of
`FractalKahlerManifold.parallel_transport` (forward difference for the path
velocity at the first sample, centered difference at interior samples, the
connection sampled at the current point). -/
noncomputable def transportVec (m : FractalKahlerManifold) (curve : ℝ → ℝ × ℝ)
    (v0 : ℝ × ℝ) (steps : ℕ) : ℕ → ℝ × ℝ
  | 0 => v0
  | i + 1 =>
    let pts := fun k => curve (t_span steps k)
    let dt := t_span steps (i + 1) - t_span steps i
    let p := pts i
    let vel : ℝ × ℝ :=
      if i = 0 then (((pts 1).1 - p.1) / dt, ((pts 1).2 - p.2) / dt)
      else (((pts (i + 1)).1 - (pts (i - 1)).1) / (2 * dt),
            ((pts (i + 1)).2 - (pts (i - 1)).2) / (2 * dt))
    let v := transportVec m curve v0 steps i
    let G := m.get_christoffel p.1 p.2
    (v.1 + -G.1 * v.1 * vel.1 * dt, v.2 + -G.2 * v.2 * vel.2 * dt)

/-- The integrator `FractalKahlerManifold.parallel_transport`: returns the
vector trajectory `(vx, vy)` (zipped) and the sampled path points. -/
noncomputable def parallel_transport (m : FractalKahlerManifold) (curve : ℝ → ℝ × ℝ)
    (v0 : ℝ × ℝ) (steps : ℕ) : List (ℝ × ℝ) × List (ℝ × ℝ) :=
  ((List.range steps).map (transportVec m curve v0 steps),
   (List.range steps).map (fun i => curve (t_span steps i)))

/-- The result tuple of `FractalKahlerManifold.compute_holonomy`. -/
structure HolonomyResult where
  angle : ℝ
  rot : Matrix (Fin 2) (Fin 2) ℝ
  traj : List (ℝ × ℝ)
  pts : List (ℝ × ℝ)

/-- The extractor `FractalKahlerManifold.compute_holonomy`: transport around the loop, take
the dot product of initial and final vectors, clip the normalized cosine to
`[−1, 1]`, take `arccos`, flip the sign when the 2D cross product is
negative, and build the rotation matrix of the signed angle. -/
noncomputable def compute_holonomy (m : FractalKahlerManifold) (loop : ℝ → ℝ × ℝ)
    (v0 : ℝ × ℝ) (steps : ℕ) : HolonomyResult :=
  let r := m.parallel_transport loop v0 steps
  let vf := r.1.getLastD (0, 0)
  let dot := v0.1 * vf.1 + v0.2 * vf.2
  let norm0 := Real.sqrt (v0.1 ^ 2 + v0.2 ^ 2)
  let norm1 := Real.sqrt (vf.1 ^ 2 + vf.2 ^ 2)
  let cos_theta := max (-1) (min 1 (dot / (norm0 * norm1)))
  let cross := v0.1 * vf.2 - v0.2 * vf.1
  let angle := if cross < 0 then -Real.arccos cos_theta else Real.arccos cos_theta
  { angle := angle
    rot := !![Real.cos angle, -Real.sin angle; Real.sin angle, Real.cos angle]
    traj := r.1
    pts := r.2 }

end FractalKahlerManifold

/-- The ill-conditioned-cell condition of spec §4.3/§7: some grid cell has
`|g| < ε`. -/
def singularCellExists (g : ℕ → ℕ → ℝ) (n : ℕ) (ε : ℝ) : Prop :=
  ∃ i j, i < n ∧ j < n ∧ |g i j| < ε

/-- Modelled from the spec: §4.3/§7 require the Christoffel builder to detect
`|g| < ε` and surface an explicit "singular metric at cell (i,j)" condition;
the source `_compute_christoffel` contains no such check and divides
unguarded. -/
def christoffelChecked (size : ℕ) (phase : ℕ → ℝ) (level : ℕ) (scale ε : ℝ) :
    Except (ℕ × ℕ) ((ℕ → ℕ → ℝ) × (ℕ → ℕ → ℝ)) :=
  @dite _ (singularCellExists (gGrid size phase level scale) size ε)
    (Classical.propDecidable _)
    (fun h => Except.error (h.choose, h.choose_spec.choose))
    (fun _ => Except.ok (GammaXgrid size phase level scale, GammaYgrid size phase level scale))

/-- Modelled from the spec: §7 requires the constructor to fail fast with a
descriptive error when `size < 2`; the source `__init__` performs no check
(with `size < 2` it runs into an `IndexError` inside numpy instead). -/
def mkManifold_checked (size level : ℕ) (scale : ℝ) (phase : ℕ → ℝ) :
    Except String FractalKahlerManifold :=
  if size < 2 then Except.error "size must be at least 2"
  else Except.ok (mkManifold size level scale phase)

/-- Modelled from the spec: §4.5/§7 require the transport call to fail fast
with a descriptive error when `steps < 2`; the source `parallel_transport`
performs no check. -/
def parallel_transport_checked (m : FractalKahlerManifold) (curve : ℝ → ℝ × ℝ)
    (v0 : ℝ × ℝ) (steps : ℕ) : Except String (List (ℝ × ℝ) × List (ℝ × ℝ)) :=
  if steps < 2 then Except.error "steps must be at least 2"
  else Except.ok (m.parallel_transport curve v0 steps)

/-! The depth-3 composition driver (`depth3_simulation.py`).  The complex
manifold class it instantiates (`complex_kahler_manifold.py`) is not part of
this tree, so the per-loop holonomy routine
`ComplexKahlerManifold.compute_holonomy_complex` enters as a parameter `H`
whose result mirrors the source's tuple
`phase, M, (v_z, v_zc), pts`; the composition logic itself is embedded
verbatim from `run_depth3_simulation`. -/

/-- The result tuple shape of `ComplexKahlerManifold.compute_holonomy_complex`:
a phase factor, a 2×2 unitary holonomy matrix, the pair of transported
component trajectories `(v_z, v_zc)`, and the sampled path points. -/
def ComplexHolonomyFn : Type :=
  (ℝ → ℂ) → ℂ × ℂ → ℕ → ℂ × Matrix (Fin 2) (Fin 2) ℂ × (List ℂ × List ℂ) × List ℂ

/-- The first loop of `run_depth3_simulation`: circle in the upper right
quadrant, `0.5 + 0.5j + 0.4·exp(2πj·t)`. -/
def loop1 (t : ℝ) : ℂ :=
  0.5 + 0.5 * Complex.I + 0.4 * Complex.exp (2 * (Real.pi : ℂ) * Complex.I * (t : ℂ))

/-- The second loop of `run_depth3_simulation`: lemniscate of Bernoulli
centred near the origin. -/
def loop2 (t : ℝ) : ℂ :=
  let θ := 2 * Real.pi * t
  0.1 * ((Real.cos θ : ℂ) + Complex.I * (Real.sin (2 * θ) : ℂ)) /
    (1 + (Real.sin θ : ℂ) ^ 2)

/-- The third loop of `run_depth3_simulation`: large circle in the lower left
quadrant, `−0.7 − 0.6j + 0.5·exp(2πj·t)`. -/
def loop3 (t : ℝ) : ℂ :=
  -0.7 - 0.6 * Complex.I + 0.5 * Complex.exp (2 * (Real.pi : ℂ) * Complex.I * (t : ℂ))

/-- The results dictionary assembled by `run_depth3_simulation`. -/
structure Depth3Results where
  phase1 : ℂ
  phase2 : ℂ
  phase3 : ℂ
  M1 : Matrix (Fin 2) (Fin 2) ℂ
  M2 : Matrix (Fin 2) (Fin 2) ℂ
  M3 : Matrix (Fin 2) (Fin 2) ℂ
  vec1 : ℂ × ℂ
  vec2 : ℂ × ℂ
  vec3 : ℂ × ℂ
  total_phase : ℂ
  total_matrix : Matrix (Fin 2) (Fin 2) ℂ

/-- The driver `run_depth3_simulation`: three consecutive holonomy
computations, each loop's initial vector being the previous loop's final
transported vector (`v_z[-1], v_zc[-1]`), with the total phase the product of
the per-loop phases and the total matrix the reverse-order product
`M₃·M₂·M₁`. -/
def run_depth3_simulation (H : ComplexHolonomyFn) : Depth3Results :=
  let init_vec : ℂ × ℂ := (1, 1)
  let r1 := H loop1 init_vec 300
  let current2 : ℂ × ℂ := (r1.2.2.1.1.getLastD 0, r1.2.2.1.2.getLastD 0)
  let r2 := H loop2 current2 300
  let current3 : ℂ × ℂ := (r2.2.2.1.1.getLastD 0, r2.2.2.1.2.getLastD 0)
  let r3 := H loop3 current3 300
  { phase1 := r1.1, phase2 := r2.1, phase3 := r3.1
    M1 := r1.2.1, M2 := r2.2.1, M3 := r3.2.1
    vec1 := init_vec, vec2 := current2, vec3 := current3
    total_phase := r1.1 * r2.1 * r3.1
    total_matrix := r3.2.1 * r2.2.1 * r1.2.1 }

end

/-! Supporting lemmas. -/

theorem Kpot_scale_zero (phase : ℕ → ℝ) (level : ℕ) (x y : ℝ) :
    Kpot phase level 0 x y = 0 := by
  simp [Kpot]

theorem Kgrid_scale_zero (size : ℕ) (phase : ℕ → ℝ) (level : ℕ) :
    Kgrid size phase level 0 = fun _ _ => 0 := by
  funext i j
  simp [Kgrid, Kpot_scale_zero]

theorem gradAxis1_zero (d : ℝ) (n : ℕ) :
    gradAxis1 (fun _ _ => (0 : ℝ)) d n = fun _ _ => 0 := by
  funext i j
  simp [gradAxis1, npGradient]

theorem gradAxis0_zero (d : ℝ) (n : ℕ) :
    gradAxis0 (fun _ _ => (0 : ℝ)) d n = fun _ _ => 0 := by
  funext i j
  simp [gradAxis0, npGradient]

theorem gGrid_scale_zero (size : ℕ) (phase : ℕ → ℝ) (level : ℕ) :
    gGrid size phase level 0 = fun _ _ => 0 := by
  funext i j
  simp [gGrid, Kgrid_scale_zero, gradAxis1_zero, gradAxis0_zero]

theorem GammaXgrid_scale_zero (size : ℕ) (phase : ℕ → ℝ) (level : ℕ) :
    GammaXgrid size phase level 0 = fun _ _ => 0 := by
  funext i j
  simp [GammaXgrid, gGrid_scale_zero, gradAxis1_zero]

theorem GammaYgrid_scale_zero (size : ℕ) (phase : ℕ → ℝ) (level : ℕ) :
    GammaYgrid size phase level 0 = fun _ _ => 0 := by
  funext i j
  simp [GammaYgrid, gGrid_scale_zero, gradAxis0_zero]

theorem get_christoffel_scale_zero (size level : ℕ) (phase : ℕ → ℝ) (x y : ℝ) :
    (mkManifold size level 0 phase).get_christoffel x y = (0, 0) := by
  simp [FractalKahlerManifold.get_christoffel, mkManifold,
    GammaXgrid_scale_zero, GammaYgrid_scale_zero]

theorem transportVec_scale_zero (size level : ℕ) (phase : ℕ → ℝ)
    (curve : ℝ → ℝ × ℝ) (v0 : ℝ × ℝ) (steps i : ℕ) :
    FractalKahlerManifold.transportVec (mkManifold size level 0 phase) curve v0 steps i = v0 := by
  induction i with
  | zero => rfl
  | succ k ih =>
    simp [FractalKahlerManifold.transportVec, ih, get_christoffel_scale_zero]

theorem argminIdx_lt (f : ℕ → ℝ) (n : ℕ) (h : 0 < n) : argminIdx f n < n := by
  induction n with
  | zero => exact absurd h (lt_irrefl 0)
  | succ k ih =>
    rw [argminIdx]
    rcases Nat.eq_zero_or_pos k with hk | hk
    · subst hk
      simp [argminIdx]
    · split
      · exact (ih hk).trans (Nat.lt_succ_self k)
      · exact Nat.lt_succ_self k

theorem argminIdx_eq_zero (f : ℕ → ℝ) (n : ℕ) (h : ∀ i, i < n → f 0 ≤ f i) :
    argminIdx f n = 0 := by
  induction n with
  | zero => rfl
  | succ k ih =>
    rw [argminIdx]
    rcases Nat.eq_zero_or_pos k with hk | hk
    · subst hk
      simp [argminIdx]
    · rw [ih (fun i hi => h i (hi.trans (Nat.lt_succ_self k)))]
      rw [if_pos (h k (Nat.lt_succ_self k))]

theorem argminIdx_eq_last (f : ℕ → ℝ) (n : ℕ)
    (hmono : ∀ i j, i < j → j < n → f j < f i) (hn : 0 < n) :
    argminIdx f n = n - 1 := by
  induction n with
  | zero => exact absurd hn (lt_irrefl 0)
  | succ k ih =>
    rw [argminIdx]
    rcases Nat.eq_zero_or_pos k with hk | hk
    · subst hk
      simp [argminIdx]
    · rw [ih (fun i j hij hj => hmono i j hij (hj.trans (Nat.lt_succ_self k))) hk]
      have hlt : f k < f (k - 1) := by
        have := hmono (k - 1) k (Nat.sub_lt hk Nat.one_pos) (Nat.lt_succ_self k)
        exact this
      rw [if_neg (not_le.mpr hlt)]
      omega

theorem gridAxis_zero (size : ℕ) : gridAxis size 0 = -2 := by
  simp [gridAxis, linspace]

theorem gridAxis_strictMono (size : ℕ) (h2 : 2 ≤ size) :
    ∀ i j : ℕ, i < j → gridAxis size i < gridAxis size j := by
  intro i j hij
  have hpos : (0 : ℝ) < (size : ℝ) - 1 := by
    have : (2 : ℝ) ≤ (size : ℝ) := by exact_mod_cast h2
    linarith
  have hnum : (i : ℝ) * (2 - -2) < (j : ℝ) * (2 - -2) := by
    have : (i : ℝ) < (j : ℝ) := by exact_mod_cast hij
    nlinarith
  simp only [gridAxis, linspace]
  have := div_lt_div_of_pos_right hnum hpos
  linarith [this]

theorem gridAxis_last (size : ℕ) (h2 : 2 ≤ size) : gridAxis size (size - 1) = 2 := by
  have h1 : (1 : ℕ) ≤ size := le_trans (by norm_num) h2
  have hne : (size : ℝ) - 1 ≠ 0 := by
    have : (2 : ℝ) ≤ (size : ℝ) := by exact_mod_cast h2
    linarith
  simp only [gridAxis, linspace]
  rw [Nat.cast_sub h1]
  push_cast
  field_simp

theorem gridAxis_ge_left (size : ℕ) (h2 : 2 ≤ size) (i : ℕ) : -2 ≤ gridAxis size i := by
  rcases Nat.eq_zero_or_pos i with h | h
  · subst h; rw [gridAxis_zero]
  · have := gridAxis_strictMono size h2 0 i h
    rw [gridAxis_zero] at this
    exact this.le

theorem gridAxis_le_right (size : ℕ) (h2 : 2 ≤ size) (i : ℕ) (hi : i < size) :
    gridAxis size i ≤ 2 := by
  rcases Nat.lt_or_ge i (size - 1) with h | h
  · have := gridAxis_strictMono size h2 i (size - 1) h
    rw [gridAxis_last size h2] at this
    exact this.le
  · have : i = size - 1 := by omega
    subst this
    rw [gridAxis_last size h2]

theorem getLastD_range_map {α : Type} (f : ℕ → α) (n : ℕ) (hn : 0 < n) (d : α) :
    ((List.range n).map f).getLastD d = f (n - 1) := by
  obtain ⟨k, rfl⟩ : ∃ k, n = k + 1 := ⟨n - 1, (Nat.succ_pred_eq_of_pos hn).symm⟩
  rw [List.range_succ, List.map_append, List.map_singleton, List.getLastD_concat]
  simp

theorem compute_holonomy_rot_eq (m : FractalKahlerManifold) (loop : ℝ → ℝ × ℝ)
    (v0 : ℝ × ℝ) (steps : ℕ) :
    (m.compute_holonomy loop v0 steps).rot =
      !![Real.cos (m.compute_holonomy loop v0 steps).angle,
         -Real.sin (m.compute_holonomy loop v0 steps).angle;
         Real.sin (m.compute_holonomy loop v0 steps).angle,
         Real.cos (m.compute_holonomy loop v0 steps).angle] := rfl

theorem transportVec_zero_vec (m : FractalKahlerManifold) (curve : ℝ → ℝ × ℝ)
    (steps i : ℕ) :
    FractalKahlerManifold.transportVec m curve (0 : ℝ × ℝ) steps i = (0 : ℝ × ℝ) := by
  induction i with
  | zero => rfl
  | succ k ih =>
    simp [FractalKahlerManifold.transportVec, ih]

theorem transportVec_smul (m : FractalKahlerManifold) (curve : ℝ → ℝ × ℝ)
    (v0 : ℝ × ℝ) (c : ℝ) (steps i : ℕ) :
    FractalKahlerManifold.transportVec m curve (c * v0.1, c * v0.2) steps i =
      (c * (FractalKahlerManifold.transportVec m curve v0 steps i).1,
       c * (FractalKahlerManifold.transportVec m curve v0 steps i).2) := by
  induction i with
  | zero => rfl
  | succ k ih =>
    simp only [FractalKahlerManifold.transportVec, ih]
    refine Prod.ext ?_ ?_ <;> simp <;> ring

theorem t_span_eq (steps i : ℕ) :
    FractalKahlerManifold.t_span steps i = (i : ℝ) / ((steps : ℝ) - 1) := by
  simp [FractalKahlerManifold.t_span, linspace]

theorem t_span_diff (steps i : ℕ) :
    FractalKahlerManifold.t_span steps (i + 1) - FractalKahlerManifold.t_span steps i =
      1 / ((steps : ℝ) - 1) := by
  rw [t_span_eq, t_span_eq, div_sub_div_same]
  congr 1
  push_cast
  ring

theorem parallel_transport_traj_get (m : FractalKahlerManifold) (curve : ℝ → ℝ × ℝ)
    (v0 : ℝ × ℝ) (steps i : ℕ) (h : i < steps) :
    (m.parallel_transport curve v0 steps).1[i]? =
      some (FractalKahlerManifold.transportVec m curve v0 steps i) := by
  simp [FractalKahlerManifold.parallel_transport, List.getElem?_map, List.getElem?_range, h]

theorem sq_sum_pos_of_ne_zero (v : ℝ × ℝ) (h : v ≠ 0) : 0 < v.1 ^ 2 + v.2 ^ 2 := by
  rcases eq_or_ne v.1 0 with h1 | h1
  · rcases eq_or_ne v.2 0 with h2 | h2
    · exact absurd (Prod.ext h1 h2) h
    · have h2' : 0 < v.2 ^ 2 := by positivity
      nlinarith [sq_nonneg v.1]
  · have h1' : 0 < v.1 ^ 2 := by positivity
    nlinarith [sq_nonneg v.2]

theorem arccos_lt_pi_of_gt_neg_one {x : ℝ} (hx : -1 < x) : Real.arccos x < Real.pi := by
  rw [Real.arccos_eq_pi_div_two_sub_arcsin]
  have := Real.neg_pi_div_two_lt_arcsin.mpr hx
  linarith

theorem clip_gt_neg_one_of_cross_ne (v w : ℝ × ℝ) (hv : v ≠ 0) (hw : w ≠ 0)
    (hc : v.1 * w.2 - v.2 * w.1 ≠ 0) :
    -1 < max (-1) (min 1 ((v.1 * w.1 + v.2 * w.2) /
      (Real.sqrt (v.1 ^ 2 + v.2 ^ 2) * Real.sqrt (w.1 ^ 2 + w.2 ^ 2)))) := by
  have hv' := sq_sum_pos_of_ne_zero v hv
  have hw' := sq_sum_pos_of_ne_zero w hw
  have hPpos : 0 < Real.sqrt (v.1 ^ 2 + v.2 ^ 2) * Real.sqrt (w.1 ^ 2 + w.2 ^ 2) :=
    mul_pos (Real.sqrt_pos.mpr hv') (Real.sqrt_pos.mpr hw')
  have hPsq : (Real.sqrt (v.1 ^ 2 + v.2 ^ 2) * Real.sqrt (w.1 ^ 2 + w.2 ^ 2)) ^ 2 =
      (v.1 ^ 2 + v.2 ^ 2) * (w.1 ^ 2 + w.2 ^ 2) := by
    rw [mul_pow, Real.sq_sqrt hv'.le, Real.sq_sqrt hw'.le]
  have hcross2 : 0 < (v.1 * w.2 - v.2 * w.1) ^ 2 := by positivity
  have hid : (v.1 * w.1 + v.2 * w.2) ^ 2 + (v.1 * w.2 - v.2 * w.1) ^ 2 =
      (v.1 ^ 2 + v.2 ^ 2) * (w.1 ^ 2 + w.2 ^ 2) := by ring
  have hdot : (v.1 * w.1 + v.2 * w.2) ^ 2 <
      (Real.sqrt (v.1 ^ 2 + v.2 ^ 2) * Real.sqrt (w.1 ^ 2 + w.2 ^ 2)) ^ 2 := by
    rw [hPsq]
    linarith
  have hgt : -(Real.sqrt (v.1 ^ 2 + v.2 ^ 2) * Real.sqrt (w.1 ^ 2 + w.2 ^ 2)) <
      v.1 * w.1 + v.2 * w.2 := by
    nlinarith [sq_nonneg (v.1 * w.1 + v.2 * w.2 +
      Real.sqrt (v.1 ^ 2 + v.2 ^ 2) * Real.sqrt (w.1 ^ 2 + w.2 ^ 2))]
  have hq : -1 < (v.1 * w.1 + v.2 * w.2) /
      (Real.sqrt (v.1 ^ 2 + v.2 ^ 2) * Real.sqrt (w.1 ^ 2 + w.2 ^ 2)) := by
    rw [lt_div_iff₀ hPpos]
    linarith
  exact lt_max_iff.mpr (Or.inr (lt_min (by norm_num) hq))

theorem compute_holonomy_angle_unfold (m : FractalKahlerManifold) (loop : ℝ → ℝ × ℝ)
    (v0 : ℝ × ℝ) (steps : ℕ) (hs : 1 ≤ steps) :
    (m.compute_holonomy loop v0 steps).angle =
      (if v0.1 * (FractalKahlerManifold.transportVec m loop v0 steps (steps - 1)).2 -
            v0.2 * (FractalKahlerManifold.transportVec m loop v0 steps (steps - 1)).1 < 0 then
        -Real.arccos (max (-1) (min 1
          ((v0.1 * (FractalKahlerManifold.transportVec m loop v0 steps (steps - 1)).1 +
              v0.2 * (FractalKahlerManifold.transportVec m loop v0 steps (steps - 1)).2) /
            (Real.sqrt (v0.1 ^ 2 + v0.2 ^ 2) *
              Real.sqrt ((FractalKahlerManifold.transportVec m loop v0 steps (steps - 1)).1 ^ 2 +
                (FractalKahlerManifold.transportVec m loop v0 steps (steps - 1)).2 ^ 2)))))
      else
        Real.arccos (max (-1) (min 1
          ((v0.1 * (FractalKahlerManifold.transportVec m loop v0 steps (steps - 1)).1 +
              v0.2 * (FractalKahlerManifold.transportVec m loop v0 steps (steps - 1)).2) /
            (Real.sqrt (v0.1 ^ 2 + v0.2 ^ 2) *
              Real.sqrt ((FractalKahlerManifold.transportVec m loop v0 steps (steps - 1)).1 ^ 2 +
                (FractalKahlerManifold.transportVec m loop v0 steps (steps - 1)).2 ^ 2)))))) := by
  have hlast : (m.parallel_transport loop v0 steps).1.getLastD (0, 0) =
      FractalKahlerManifold.transportVec m loop v0 steps (steps - 1) :=
    getLastD_range_map _ steps hs _
  simp only [FractalKahlerManifold.compute_holonomy, hlast]

/-! Claim theorems. -/

/-- C10: the rotation matrix returned by `compute_holonomy` always has
determinant exactly `cos²a + sin²a = 1` — a proper rotation, never a
reflection. -/
theorem holonomy_matrix_det_one (m : FractalKahlerManifold) (loop : ℝ → ℝ × ℝ)
    (v0 : ℝ × ℝ) (steps : ℕ) :
    (m.compute_holonomy loop v0 steps).rot.det =
      Real.cos (m.compute_holonomy loop v0 steps).angle ^ 2 +
        Real.sin (m.compute_holonomy loop v0 steps).angle ^ 2 ∧
    (m.compute_holonomy loop v0 steps).rot.det = 1 := by
  rw [compute_holonomy_rot_eq, Matrix.det_fin_two_of]
  constructor
  · ring
  · nlinarith [Real.sin_sq_add_cos_sq ((m.compute_holonomy loop v0 steps).angle)]

/-- C5: the 2×2 rotation matrix returned by `compute_holonomy` satisfies
`Rᵀ·R = I` (exactly in real arithmetic, hence within the `1e-6` tolerance the
spec asks for). -/
theorem holonomy_matrix_orthogonal (m : FractalKahlerManifold) (loop : ℝ → ℝ × ℝ)
    (v0 : ℝ × ℝ) (steps : ℕ) :
    (m.compute_holonomy loop v0 steps).rotᵀ * (m.compute_holonomy loop v0 steps).rot = 1 ∧
    ∀ i j : Fin 2,
      |((m.compute_holonomy loop v0 steps).rotᵀ * (m.compute_holonomy loop v0 steps).rot - 1) i j|
        ≤ 1e-6 := by
  have key : (m.compute_holonomy loop v0 steps).rotᵀ * (m.compute_holonomy loop v0 steps).rot = 1 := by
    rw [compute_holonomy_rot_eq]
    ext i j
    fin_cases i <;> fin_cases j <;>
      simp [Matrix.mul_apply, Fin.sum_univ_two, Matrix.transpose_apply, Matrix.one_apply,
        Matrix.cons_val', Matrix.cons_val_zero, Matrix.cons_val_one, Matrix.head_cons,
        Matrix.head_fin_const, Matrix.empty_val', Matrix.cons_val_fin_one,
        Matrix.vecHead, Matrix.vecTail] <;>
      nlinarith [Real.sin_sq_add_cos_sq ((m.compute_holonomy loop v0 steps).angle)]
  refine ⟨key, ?_⟩
  intro i j
  rw [key]
  simp
  norm_num

/-- C9: `parallel_transport` is homogeneous in the initial vector — scaling
the initial vector by `c` scales the whole trajectory componentwise by `c`,
and the zero initial vector yields the identically zero trajectory. -/
theorem parallel_transport_homogeneous (m : FractalKahlerManifold) (curve : ℝ → ℝ × ℝ)
    (v0 : ℝ × ℝ) (c : ℝ) (steps : ℕ) :
    (m.parallel_transport curve (c * v0.1, c * v0.2) steps).1 =
      (m.parallel_transport curve v0 steps).1.map (fun p => (c * p.1, c * p.2)) ∧
    (m.parallel_transport curve ((0 : ℝ), (0 : ℝ)) steps).1 =
      List.replicate steps ((0 : ℝ), (0 : ℝ)) := by
  constructor
  · simp only [FractalKahlerManifold.parallel_transport, List.map_map]
    refine List.map_congr_left ?_
    intro i _
    simp [Function.comp, transportVec_smul]
  · have h00 : ((0 : ℝ), (0 : ℝ)) = (0 : ℝ × ℝ) := rfl
    rw [h00]
    refine List.eq_replicate_iff.mpr ⟨by simp [FractalKahlerManifold.parallel_transport], ?_⟩
    intro b hb
    simp only [FractalKahlerManifold.parallel_transport, List.mem_map] at hb
    obtain ⟨i, _, rfl⟩ := hb
    exact transportVec_zero_vec m curve steps i

/-- C3: `parallel_transport` samples the curve at `steps` uniformly spaced
parameters in `[0,1]`, estimates the path velocity by a forward difference at
the first sample and centered differences at interior samples, advances the
vector by forward Euler using the connection sampled at the current point,
and returns a trajectory and a point list both of the requested length. -/
theorem parallel_transport_sampling_euler (m : FractalKahlerManifold)
    (curve : ℝ → ℝ × ℝ) (v0 : ℝ × ℝ) (steps : ℕ) (hs : 2 ≤ steps) :
    (m.parallel_transport curve v0 steps).2 =
      (List.range steps).map (fun i : ℕ => curve ((i : ℝ) / ((steps : ℝ) - 1))) ∧
    (m.parallel_transport curve v0 steps).1.length = steps ∧
    (m.parallel_transport curve v0 steps).2.length = steps ∧
    (m.parallel_transport curve v0 steps).1[0]? = some v0 ∧
    (∀ i v, i + 1 < steps → (m.parallel_transport curve v0 steps).1[i]? = some v →
      (m.parallel_transport curve v0 steps).1[i + 1]? = some
        (let dt : ℝ := 1 / ((steps : ℝ) - 1)
         let pt : ℕ → ℝ × ℝ := fun k => curve ((k : ℝ) / ((steps : ℝ) - 1))
         let vel : ℝ × ℝ :=
           if i = 0 then (((pt 1).1 - (pt 0).1) / dt, ((pt 1).2 - (pt 0).2) / dt)
           else (((pt (i + 1)).1 - (pt (i - 1)).1) / (2 * dt),
                 ((pt (i + 1)).2 - (pt (i - 1)).2) / (2 * dt))
         let G := m.get_christoffel (pt i).1 (pt i).2
         (v.1 + -G.1 * v.1 * vel.1 * dt, v.2 + -G.2 * v.2 * vel.2 * dt))) := by
  refine ⟨?_, by simp [FractalKahlerManifold.parallel_transport],
    by simp [FractalKahlerManifold.parallel_transport], ?_, ?_⟩
  · simp only [FractalKahlerManifold.parallel_transport]
    exact List.map_congr_left fun i _ => by rw [t_span_eq]
  · rw [parallel_transport_traj_get m curve v0 steps 0 (by omega)]
    rfl
  · intro i v hi hv
    rw [parallel_transport_traj_get m curve v0 steps i (by omega)] at hv
    obtain rfl : FractalKahlerManifold.transportVec m curve v0 steps i = v :=
      Option.some.inj hv
    rw [parallel_transport_traj_get m curve v0 steps (i + 1) hi]
    congr 1
    simp only [FractalKahlerManifold.transportVec]
    simp only [t_span_diff]
    simp only [t_span_eq]
    split_ifs with h
    · subst h; norm_num
    · rfl

/-- A concrete manifold used to instantiate the universally quantified
theorems: `scale = 0`, so its potential, metric and connection are all zero. -/
noncomputable def Mzero : FractalKahlerManifold := mkManifold 2 0 0 fun _ => 0

/-- A concrete constant curve used to instantiate the theorems. -/
noncomputable def czero : ℝ → ℝ × ℝ := fun _ => (0, 0)

/-- Witness for C3: the sampling/Euler description instantiated at a concrete
manifold, curve, initial vector and step count. -/
theorem parallel_transport_sampling_euler_witness :
    2 ≤ 2 ∧
    ((Mzero.parallel_transport czero ((1 : ℝ), (0 : ℝ)) 2).2 =
      (List.range 2).map (fun i : ℕ => czero ((i : ℝ) / (((2 : ℕ) : ℝ) - 1))) ∧
    (Mzero.parallel_transport czero ((1 : ℝ), (0 : ℝ)) 2).1.length = 2 ∧
    (Mzero.parallel_transport czero ((1 : ℝ), (0 : ℝ)) 2).2.length = 2 ∧
    (Mzero.parallel_transport czero ((1 : ℝ), (0 : ℝ)) 2).1[0]? = some ((1 : ℝ), (0 : ℝ)) ∧
    (∀ i v, i + 1 < 2 →
      (Mzero.parallel_transport czero ((1 : ℝ), (0 : ℝ)) 2).1[i]? = some v →
      (Mzero.parallel_transport czero ((1 : ℝ), (0 : ℝ)) 2).1[i + 1]? = some
        (let dt : ℝ := 1 / (((2 : ℕ) : ℝ) - 1)
         let pt : ℕ → ℝ × ℝ := fun k => czero ((k : ℝ) / (((2 : ℕ) : ℝ) - 1))
         let vel : ℝ × ℝ :=
           if i = 0 then (((pt 1).1 - (pt 0).1) / dt, ((pt 1).2 - (pt 0).2) / dt)
           else (((pt (i + 1)).1 - (pt (i - 1)).1) / (2 * dt),
                 ((pt (i + 1)).2 - (pt (i - 1)).2) / (2 * dt))
         let G := Mzero.get_christoffel (pt i).1 (pt i).2
         (v.1 + -G.1 * v.1 * vel.1 * dt, v.2 + -G.2 * v.2 * vel.2 * dt)))) :=
  ⟨by norm_num,
   parallel_transport_sampling_euler Mzero czero ((1 : ℝ), (0 : ℝ)) 2 (by norm_num)⟩

/-- C8: `get_christoffel` returns the connection values at the nearest grid
point, chosen by an independent per-axis argmin over the absolute differences
to the axis samples, with no interpolation; coordinates outside the grid
bounding box `[-2,2]×[-2,2]` are silently clamped to the nearest edge index. -/
theorem get_christoffel_nearest_clamped (size level : ℕ) (scale : ℝ) (phase : ℕ → ℝ)
    (xq yq : ℝ) (h2 : 2 ≤ size) :
    (mkManifold size level scale phase).get_christoffel xq yq =
      ((mkManifold size level scale phase).Gamma_x_xx
         (argminIdx (fun i => |(mkManifold size level scale phase).y i - yq|) size)
         (argminIdx (fun i => |(mkManifold size level scale phase).x i - xq|) size),
       (mkManifold size level scale phase).Gamma_y_yy
         (argminIdx (fun i => |(mkManifold size level scale phase).y i - yq|) size)
         (argminIdx (fun i => |(mkManifold size level scale phase).x i - xq|) size)) ∧
    (xq ≤ -2 → argminIdx (fun i => |(mkManifold size level scale phase).x i - xq|) size = 0) ∧
    (2 ≤ xq → argminIdx (fun i => |(mkManifold size level scale phase).x i - xq|) size = size - 1) ∧
    (yq ≤ -2 → argminIdx (fun i => |(mkManifold size level scale phase).y i - yq|) size = 0) ∧
    (2 ≤ yq → argminIdx (fun i => |(mkManifold size level scale phase).y i - yq|) size = size - 1) := by
  have hax : (mkManifold size level scale phase).x = gridAxis size := rfl
  have hay : (mkManifold size level scale phase).y = gridAxis size := rfl
  have left : ∀ q : ℝ, q ≤ -2 → argminIdx (fun i => |gridAxis size i - q|) size = 0 := by
    intro q hq
    refine argminIdx_eq_zero _ _ ?_
    intro i _
    have h0 : gridAxis size 0 = -2 := gridAxis_zero size
    have hge : -2 ≤ gridAxis size i := gridAxis_ge_left size h2 i
    rw [abs_of_nonneg (by rw [h0]; linarith), abs_of_nonneg (by linarith)]
    rw [h0]
    linarith
  have right : ∀ q : ℝ, 2 ≤ q → argminIdx (fun i => |gridAxis size i - q|) size = size - 1 := by
    intro q hq
    refine argminIdx_eq_last _ _ ?_ (by omega)
    intro i j hij hj
    have hxj : gridAxis size j ≤ 2 := gridAxis_le_right size h2 j hj
    have hxi : gridAxis size i ≤ 2 := gridAxis_le_right size h2 i (hij.trans hj)
    have hlt : gridAxis size i < gridAxis size j := gridAxis_strictMono size h2 i j hij
    rw [abs_of_nonpos (by linarith), abs_of_nonpos (by linarith)]
    linarith
  exact ⟨rfl, fun hx => by rw [hax]; exact left xq hx,
    fun hx => by rw [hax]; exact right xq hx,
    fun hy => by rw [hay]; exact left yq hy,
    fun hy => by rw [hay]; exact right yq hy⟩

/-- Witness for C8: the nearest-grid-point/clamping description instantiated
at a concrete manifold and a concrete out-of-range coordinate. -/
theorem get_christoffel_nearest_clamped_witness :
    2 ≤ 2 ∧
    ((mkManifold 2 0 0 fun _ => 0).get_christoffel (-3) 3 =
      ((mkManifold 2 0 0 fun _ => 0).Gamma_x_xx
         (argminIdx (fun i => |(mkManifold 2 0 0 fun _ => 0).y i - 3|) 2)
         (argminIdx (fun i => |(mkManifold 2 0 0 fun _ => 0).x i - (-3)|) 2),
       (mkManifold 2 0 0 fun _ => 0).Gamma_y_yy
         (argminIdx (fun i => |(mkManifold 2 0 0 fun _ => 0).y i - 3|) 2)
         (argminIdx (fun i => |(mkManifold 2 0 0 fun _ => 0).x i - (-3)|) 2)) ∧
    ((-3 : ℝ) ≤ -2 → argminIdx (fun i => |(mkManifold 2 0 0 fun _ => 0).x i - (-3)|) 2 = 0) ∧
    ((2 : ℝ) ≤ -3 → argminIdx (fun i => |(mkManifold 2 0 0 fun _ => 0).x i - (-3)|) 2 = 2 - 1) ∧
    ((3 : ℝ) ≤ -2 → argminIdx (fun i => |(mkManifold 2 0 0 fun _ => 0).y i - 3|) 2 = 0) ∧
    ((2 : ℝ) ≤ 3 → argminIdx (fun i => |(mkManifold 2 0 0 fun _ => 0).y i - 3|) 2 = 2 - 1)) :=
  ⟨by norm_num, get_christoffel_nearest_clamped 2 0 0 (fun _ => 0) (-3) 3 (by norm_num)⟩

/-- C1: for a full-loop transport with nonzero initial and final vectors,
`compute_holonomy` returns `arccos` of the normalized dot product clipped to
`[−1,1]` (the clip is always applied), sign-flipped exactly when the 2D cross
product `v₀ₓ·v_fy − v₀y·v_fx` is negative, and the 2×2 rotation matrix built
from that signed angle. -/
theorem compute_holonomy_signed_angle (m : FractalKahlerManifold) (loop : ℝ → ℝ × ℝ)
    (v0 : ℝ × ℝ) (steps : ℕ) (hs : 2 ≤ steps) (h0 : v0 ≠ 0)
    (hf : FractalKahlerManifold.transportVec m loop v0 steps (steps - 1) ≠ 0) :
    (let vf := FractalKahlerManifold.transportVec m loop v0 steps (steps - 1)
     let a := Real.arccos (max (-1) (min 1 ((v0.1 * vf.1 + v0.2 * vf.2) /
       (Real.sqrt (v0.1 ^ 2 + v0.2 ^ 2) * Real.sqrt (vf.1 ^ 2 + vf.2 ^ 2)))))
     let s := if v0.1 * vf.2 - v0.2 * vf.1 < 0 then -a else a
     (m.compute_holonomy loop v0 steps).angle = s ∧
     (m.compute_holonomy loop v0 steps).rot =
       !![Real.cos s, -Real.sin s; Real.sin s, Real.cos s]) := by
  intro vf a s
  constructor
  · rw [compute_holonomy_angle_unfold m loop v0 steps (by omega)]
  · rw [compute_holonomy_rot_eq,
      compute_holonomy_angle_unfold m loop v0 steps (by omega)]

/-- Witness for C1 at a concrete manifold, loop, vector and step count. -/
theorem compute_holonomy_signed_angle_witness :
    2 ≤ 2 ∧ ((1 : ℝ), (0 : ℝ)) ≠ (0 : ℝ × ℝ) ∧
    FractalKahlerManifold.transportVec Mzero czero ((1 : ℝ), (0 : ℝ)) 2 (2 - 1) ≠ 0 ∧
    (let vf := FractalKahlerManifold.transportVec Mzero czero ((1 : ℝ), (0 : ℝ)) 2 (2 - 1)
     let a := Real.arccos (max (-1) (min 1 ((1 * vf.1 + 0 * vf.2) /
       (Real.sqrt ((1 : ℝ) ^ 2 + (0 : ℝ) ^ 2) * Real.sqrt (vf.1 ^ 2 + vf.2 ^ 2)))))
     let s := if 1 * vf.2 - 0 * vf.1 < 0 then -a else a
     (Mzero.compute_holonomy czero ((1 : ℝ), (0 : ℝ)) 2).angle = s ∧
     (Mzero.compute_holonomy czero ((1 : ℝ), (0 : ℝ)) 2).rot =
       !![Real.cos s, -Real.sin s; Real.sin s, Real.cos s]) := by
  have h0 : ((1 : ℝ), (0 : ℝ)) ≠ (0 : ℝ × ℝ) := by
    simp [Prod.ext_iff]
  have hfz : FractalKahlerManifold.transportVec Mzero czero ((1 : ℝ), (0 : ℝ)) 2 (2 - 1) =
      ((1 : ℝ), (0 : ℝ)) := by
    simp only [Mzero]
    exact transportVec_scale_zero 2 0 (fun _ => 0) czero ((1 : ℝ), (0 : ℝ)) 2 (2 - 1)
  refine ⟨by norm_num, h0, by rw [hfz]; exact h0, ?_⟩
  exact compute_holonomy_signed_angle Mzero czero ((1 : ℝ), (0 : ℝ)) 2 (by norm_num) h0
    (by rw [hfz]; exact h0)

/-- C4: for valid inputs the signed holonomy angle lies in `(−π, π]`, and
decomposing the returned rotation matrix back into an angle via the atan2 of
its entries (`arg (R₀₀ + R₁₀·i)`) recovers exactly that angle. -/
theorem holonomy_angle_range_roundtrip (m : FractalKahlerManifold) (loop : ℝ → ℝ × ℝ)
    (v0 : ℝ × ℝ) (steps : ℕ) (hs : 2 ≤ steps) (h0 : v0 ≠ 0)
    (hf : FractalKahlerManifold.transportVec m loop v0 steps (steps - 1) ≠ 0) :
    (m.compute_holonomy loop v0 steps).angle ∈ Set.Ioc (-Real.pi) Real.pi ∧
    Complex.arg (((m.compute_holonomy loop v0 steps).rot 0 0 : ℝ) +
      ((m.compute_holonomy loop v0 steps).rot 1 0 : ℝ) * Complex.I) =
      (m.compute_holonomy loop v0 steps).angle := by
  set vf := FractalKahlerManifold.transportVec m loop v0 steps (steps - 1) with hvf
  have hf' : vf ≠ 0 := by rw [hvf]; exact hf
  have hangle := compute_holonomy_angle_unfold m loop v0 steps (by omega)
  rw [← hvf] at hangle
  set q := (v0.1 * vf.1 + v0.2 * vf.2) /
      (Real.sqrt (v0.1 ^ 2 + v0.2 ^ 2) * Real.sqrt (vf.1 ^ 2 + vf.2 ^ 2)) with hqdef
  have harccos_le : Real.arccos (max (-1) (min 1 q)) ≤ Real.pi := Real.arccos_le_pi _
  have harccos_nonneg : 0 ≤ Real.arccos (max (-1) (min 1 q)) := Real.arccos_nonneg _
  have hmem : (m.compute_holonomy loop v0 steps).angle ∈ Set.Ioc (-Real.pi) Real.pi := by
    rw [hangle]
    split_ifs with hcross
    · refine ⟨?_, by linarith [Real.pi_pos]⟩
      have hclip : -1 < max (-1) (min 1 q) :=
        clip_gt_neg_one_of_cross_ne v0 vf h0 hf' (ne_of_lt hcross)
      have := arccos_lt_pi_of_gt_neg_one hclip
      linarith
    · exact ⟨by linarith [Real.pi_pos], harccos_le⟩
  refine ⟨hmem, ?_⟩
  have e0 : (m.compute_holonomy loop v0 steps).rot 0 0 =
      Real.cos ((m.compute_holonomy loop v0 steps).angle) := by
    rw [compute_holonomy_rot_eq]; simp
  have e1 : (m.compute_holonomy loop v0 steps).rot 1 0 =
      Real.sin ((m.compute_holonomy loop v0 steps).angle) := by
    rw [compute_holonomy_rot_eq]; simp
  rw [e0, e1, Complex.ofReal_cos, Complex.ofReal_sin]
  exact Complex.arg_cos_add_sin_mul_I hmem

/-- Witness for C4 at a concrete manifold, loop, vector and step count. -/
theorem holonomy_angle_range_roundtrip_witness :
    2 ≤ 2 ∧ ((1 : ℝ), (0 : ℝ)) ≠ (0 : ℝ × ℝ) ∧
    FractalKahlerManifold.transportVec Mzero czero ((1 : ℝ), (0 : ℝ)) 2 (2 - 1) ≠ 0 ∧
    ((Mzero.compute_holonomy czero ((1 : ℝ), (0 : ℝ)) 2).angle ∈
        Set.Ioc (-Real.pi) Real.pi ∧
      Complex.arg (((Mzero.compute_holonomy czero ((1 : ℝ), (0 : ℝ)) 2).rot 0 0 : ℝ) +
        ((Mzero.compute_holonomy czero ((1 : ℝ), (0 : ℝ)) 2).rot 1 0 : ℝ) * Complex.I) =
        (Mzero.compute_holonomy czero ((1 : ℝ), (0 : ℝ)) 2).angle) := by
  have h0 : ((1 : ℝ), (0 : ℝ)) ≠ (0 : ℝ × ℝ) := by
    simp [Prod.ext_iff]
  have hfz : FractalKahlerManifold.transportVec Mzero czero ((1 : ℝ), (0 : ℝ)) 2 (2 - 1) =
      ((1 : ℝ), (0 : ℝ)) := by
    simp only [Mzero]
    exact transportVec_scale_zero 2 0 (fun _ => 0) czero ((1 : ℝ), (0 : ℝ)) 2 (2 - 1)
  refine ⟨by norm_num, h0, by rw [hfz]; exact h0, ?_⟩
  exact holonomy_angle_range_roundtrip Mzero czero ((1 : ℝ), (0 : ℝ)) 2 (by norm_num) h0
    (by rw [hfz]; exact h0)

/-- C2: with `scale = 0` the potential field and the metric field are
identically zero, and the source Christoffel builder then performs the
division by the zero metric silently (in this real-number embedding the
unguarded `0/0` yields `0`; numpy produces `inf`/`NaN`) instead of raising
the singular-metric error; the spec-modelled checked builder does surface the
error on the same input. -/
theorem scale_zero_metric_silent_division (size level : ℕ) (phase : ℕ → ℝ) (ε : ℝ)
    (hsize : 0 < size) (hε : 0 < ε) :
    (∀ i j, Kgrid size phase level 0 i j = 0) ∧
    (∀ i j, gGrid size phase level 0 i j = 0) ∧
    (∀ i j, GammaXgrid size phase level 0 i j = 0 ∧ GammaYgrid size phase level 0 i j = 0) ∧
    ∃ cell, christoffelChecked size phase level 0 ε = Except.error cell := by
  refine ⟨fun i j => by rw [Kgrid_scale_zero], fun i j => by rw [gGrid_scale_zero],
    fun i j => ⟨by rw [GammaXgrid_scale_zero], by rw [GammaYgrid_scale_zero]⟩, ?_⟩
  have h : singularCellExists (gGrid size phase level 0) size ε :=
    ⟨0, 0, hsize, hsize, by rw [gGrid_scale_zero]; simpa using hε⟩
  exact ⟨(h.choose, h.choose_spec.choose), by
    unfold christoffelChecked
    rw [dif_pos h]⟩

/-- Witness for C2 at a concrete grid size and tolerance. -/
theorem scale_zero_metric_silent_division_witness :
    0 < 2 ∧ (0 : ℝ) < 1 / 1000000 ∧
    ((∀ i j, Kgrid 2 (fun _ => 0) 3 0 i j = 0) ∧
     (∀ i j, gGrid 2 (fun _ => 0) 3 0 i j = 0) ∧
     (∀ i j, GammaXgrid 2 (fun _ => 0) 3 0 i j = 0 ∧ GammaYgrid 2 (fun _ => 0) 3 0 i j = 0) ∧
     ∃ cell, christoffelChecked 2 (fun _ => 0) 3 0 (1 / 1000000) = Except.error cell) :=
  ⟨by norm_num, by norm_num,
   scale_zero_metric_silent_division 2 3 (fun _ => 0) (1 / 1000000) (by norm_num) (by norm_num)⟩

/-- C7: the code does not fail fast on precondition violations — with
`steps = 1` the source `parallel_transport` silently returns a single-sample
trajectory (no integration, no error), whereas the spec-modelled checked
wrappers reject `steps < 2` and `size < 2` with descriptive errors. -/
theorem precondition_not_failfast :
    (mkManifold 2 0 0 fun _ => 0).parallel_transport czero ((1 : ℝ), (0 : ℝ)) 1 =
      ([((1 : ℝ), (0 : ℝ))], [((0 : ℝ), (0 : ℝ))]) ∧
    parallel_transport_checked (mkManifold 2 0 0 fun _ => 0) czero ((1 : ℝ), (0 : ℝ)) 1 =
      Except.error "steps must be at least 2" ∧
    mkManifold_checked 1 0 0 (fun _ => 0) = Except.error "size must be at least 2" := by
  exact ⟨rfl, rfl, rfl⟩

/-- C6: the depth-3 composer chains the loops (each loop's initial vector is
the previous loop's final transported vector), multiplies the per-loop phase
factors, and composes the total matrix as the reverse-order product
`M₃·M₂·M₁` (exactly, hence within `1e-9`); when every per-loop phase is a
unit phase `e^{iθ}` the total phase is `e^{i(θ₁+θ₂+θ₃)}`, the phase of the
summed signed angles. -/
theorem depth3_composition (H : ComplexHolonomyFn) (θ1 θ2 θ3 : ℝ)
    (h1 : (run_depth3_simulation H).phase1 = Complex.exp (θ1 * Complex.I))
    (h2 : (run_depth3_simulation H).phase2 = Complex.exp (θ2 * Complex.I))
    (h3 : (run_depth3_simulation H).phase3 = Complex.exp (θ3 * Complex.I)) :
    (run_depth3_simulation H).vec1 = ((1 : ℂ), (1 : ℂ)) ∧
    (run_depth3_simulation H).vec2 =
      ((H loop1 ((1 : ℂ), (1 : ℂ)) 300).2.2.1.1.getLastD 0,
       (H loop1 ((1 : ℂ), (1 : ℂ)) 300).2.2.1.2.getLastD 0) ∧
    (run_depth3_simulation H).vec3 =
      ((H loop2 (run_depth3_simulation H).vec2 300).2.2.1.1.getLastD 0,
       (H loop2 (run_depth3_simulation H).vec2 300).2.2.1.2.getLastD 0) ∧
    (run_depth3_simulation H).total_matrix =
      (run_depth3_simulation H).M3 * (run_depth3_simulation H).M2 *
        (run_depth3_simulation H).M1 ∧
    (∀ i j : Fin 2, Complex.abs ((run_depth3_simulation H).total_matrix i j -
      ((run_depth3_simulation H).M3 * (run_depth3_simulation H).M2 *
        (run_depth3_simulation H).M1) i j) ≤ 1e-9) ∧
    (run_depth3_simulation H).total_phase =
      (run_depth3_simulation H).phase1 * (run_depth3_simulation H).phase2 *
        (run_depth3_simulation H).phase3 ∧
    (run_depth3_simulation H).total_phase = Complex.exp ((θ1 + θ2 + θ3) * Complex.I) := by
  refine ⟨rfl, rfl, rfl, rfl, ?_, rfl, ?_⟩
  · intro i j
    have hXY : (run_depth3_simulation H).total_matrix =
        (run_depth3_simulation H).M3 * (run_depth3_simulation H).M2 *
          (run_depth3_simulation H).M1 := rfl
    rw [hXY, sub_self]
    simp
    norm_num
  · have hP : (run_depth3_simulation H).total_phase =
        (run_depth3_simulation H).phase1 * (run_depth3_simulation H).phase2 *
          (run_depth3_simulation H).phase3 := rfl
    rw [hP, h1, h2, h3, ← Complex.exp_add, ← Complex.exp_add]
    congr 1
    ring

/-- A trivial constant per-loop holonomy routine used to instantiate the
composer for the witness. -/
noncomputable def trivialHolonomy : ComplexHolonomyFn := fun _ _ _ => (1, 1, ([], []), [])

/-- Witness for C6 with the trivial constant holonomy routine and zero
angles. -/
theorem depth3_composition_witness :
    (run_depth3_simulation trivialHolonomy).phase1 = Complex.exp ((0 : ℝ) * Complex.I) ∧
    (run_depth3_simulation trivialHolonomy).phase2 = Complex.exp ((0 : ℝ) * Complex.I) ∧
    (run_depth3_simulation trivialHolonomy).phase3 = Complex.exp ((0 : ℝ) * Complex.I) ∧
    ((run_depth3_simulation trivialHolonomy).vec1 = ((1 : ℂ), (1 : ℂ)) ∧
     (run_depth3_simulation trivialHolonomy).vec2 =
       ((trivialHolonomy loop1 ((1 : ℂ), (1 : ℂ)) 300).2.2.1.1.getLastD 0,
        (trivialHolonomy loop1 ((1 : ℂ), (1 : ℂ)) 300).2.2.1.2.getLastD 0) ∧
     (run_depth3_simulation trivialHolonomy).vec3 =
       ((trivialHolonomy loop2 (run_depth3_simulation trivialHolonomy).vec2 300).2.2.1.1.getLastD 0,
        (trivialHolonomy loop2 (run_depth3_simulation trivialHolonomy).vec2 300).2.2.1.2.getLastD 0) ∧
     (run_depth3_simulation trivialHolonomy).total_matrix =
       (run_depth3_simulation trivialHolonomy).M3 * (run_depth3_simulation trivialHolonomy).M2 *
         (run_depth3_simulation trivialHolonomy).M1 ∧
     (∀ i j : Fin 2, Complex.abs ((run_depth3_simulation trivialHolonomy).total_matrix i j -
       ((run_depth3_simulation trivialHolonomy).M3 * (run_depth3_simulation trivialHolonomy).M2 *
         (run_depth3_simulation trivialHolonomy).M1) i j) ≤ 1e-9) ∧
     (run_depth3_simulation trivialHolonomy).total_phase =
       (run_depth3_simulation trivialHolonomy).phase1 *
         (run_depth3_simulation trivialHolonomy).phase2 *
           (run_depth3_simulation trivialHolonomy).phase3 ∧
     (run_depth3_simulation trivialHolonomy).total_phase =
       Complex.exp (((0 : ℝ) + (0 : ℝ) + (0 : ℝ)) * Complex.I)) := by
  have h1 : (run_depth3_simulation trivialHolonomy).phase1 =
      Complex.exp ((0 : ℝ) * Complex.I) := by
    simp [run_depth3_simulation, trivialHolonomy]
  have h2 : (run_depth3_simulation trivialHolonomy).phase2 =
      Complex.exp ((0 : ℝ) * Complex.I) := by
    simp [run_depth3_simulation, trivialHolonomy]
  have h3 : (run_depth3_simulation trivialHolonomy).phase3 =
      Complex.exp ((0 : ℝ) * Complex.I) := by
    simp [run_depth3_simulation, trivialHolonomy]
  exact ⟨h1, h2, h3, depth3_composition trivialHolonomy 0 0 0 h1 h2 h3⟩

end FHT
